import Mathlib

/-!
Verification of the battery telemetry core of the chargetop repository.

The acquisition pipeline (`battery/battery.go`) runs `ioreg -r -n
AppleSmartBattery` and extracts fields from its text dump with one regex per
field of the shape `"Key" = Value` (or `"Key"=Value`).  We embed the dump at
the record level: a dump is the list of `"Key" = Value` records appearing in
the text, in textual order.  Each Go regex is embedded as a first-match scan
over that list, restricted to records whose value shape the regex could
capture (a number for `(\d+)`, Yes/No for `(Yes|No)`, only Yes for `(Yes)`, a
nonempty quoted string for `([^\"]+)`), which is exactly how
`regexp.FindStringSubmatch` behaves on such dumps.  Duplicate keys are
represented faithfully: the first matching record wins.

Go machine integers are modelled as `Nat` (every captured value comes from a
`\d+` group, hence is non-negative); `float64` temperature and health
arithmetic is modelled exactly over `ℚ`.
-/

/-- One value attached to a `"Key" = Value` record of the ioreg dump:
a decimal integer, a Yes/No flag, or a quoted string. -/
inductive FieldVal where
  | num (n : Nat)
  | flag (b : Bool)
  | str (s : String)
deriving DecidableEq, Repr

/-- A dump is the ordered list of `"Key" = Value` records in the ioreg text. -/
abbrev Dump := List (String × FieldVal)

/-- Embeds `getInt` (battery.go:129-137) applied to a pattern
`\"Key\"\s*=\s*(\d+)`: the first record with this key and a numeric value;
`0` when no record matches, since `FindStringSubmatch` returns no submatch
and `getInt` falls through to `return 0`. -/
def getInt (d : Dump) (key : String) : Nat :=
  match d.find? (fun e => e.1 = key && (match e.2 with | .num _ => true | _ => false)) with
  | some (_, .num n) => n
  | _ => 0

/-- Embeds `getString` (battery.go:139-146) applied to a pattern
`\"Key\"\s*=\s*(Yes|No)`: the first record with this key and a flag value,
rendered as "Yes"/"No"; `""` when no record matches. -/
def getYesNo (d : Dump) (key : String) : String :=
  match d.find? (fun e => e.1 = key && (match e.2 with | .flag _ => true | _ => false)) with
  | some (_, .flag b) => if b then "Yes" else "No"
  | _ => ""

/-- Embeds `getString` applied to a pattern `\"Key\"\s*=\s*(Yes)`: only a
record whose value is literally `Yes` can match, so a `No` record is skipped
by the scan. Used for the `FullyCharged` flag (battery.go:72). -/
def getYes (d : Dump) (key : String) : String :=
  match d.find? (fun e => e.1 = key && (match e.2 with | .flag true => true | _ => false)) with
  | some _ => "Yes"
  | _ => ""

/-- Embeds `getString` applied to `\"Serial\"\s*=\s*\"([^\"]+)\"`: the first
record with this key and a nonempty quoted-string value. -/
def getStr (d : Dump) (key : String) : String :=
  match d.find? (fun e => e.1 = key && (match e.2 with | .str s => !s.isEmpty | _ => false)) with
  | some (_, .str s) => s
  | _ => ""

/-- The `BatteryInfo` struct of battery.go:11-25.  `Temperature` is Go
`float64`; all inputs reaching it are small naturals divided by 100, which
`float64` represents exactly, so `ℚ` is a faithful carrier here. -/
structure BatteryInfo where
  percent : Nat
  status : String
  remaining : String
  isCharging : Bool
  temperature : ℚ
  cycleCount : Nat
  condition : String
  maxCapacity : Nat
  health : String
  wattage : Nat
  serial : String
deriving DecidableEq, Repr

/-- The initialisation of `info` at battery.go:28-31: `Status: "Unknown"`,
`Remaining: "Calculating..."`, every other field at its Go zero value. -/
def initInfo : BatteryInfo :=
  { percent := 0
    status := "Unknown"
    remaining := "Calculating..."
    isCharging := false
    temperature := 0
    cycleCount := 0
    condition := ""
    maxCapacity := 0
    health := ""
    wattage := 0
    serial := "" }

/-- Embeds `fmt.Sprintf("%02d", m)` for the minutes part (battery.go:83): zero-pad
to two digits.  The minutes value is always `tr % 60 < 60 < 100`. -/
def pad2 (n : Nat) : String :=
  if n < 10 then "0" ++ toString n else toString n

/-- Embeds `fmt.Sprintf("%.0f", q)` on a non-negative value (battery.go:117):
round half to even, computed here exactly on the rational `a / b` (with
`b > 0`).  The Go code forms the quotient in `float64`; on all inputs where
the double approximation does not cross a rounding boundary this agrees
with the exact rational rounding below. -/
def divRoundEven (a b : Nat) : Nat :=
  let q := a / b
  let r := a % b
  if 2 * r < b then q
  else if b < 2 * r then q + 1
  else if q % 2 = 0 then q else q + 1

/-- The parsing and derivation part of `GetBatteryInfo` (battery.go:47-126),
applied to a successfully read dump. Field by field in source order:
percent (58-62), charging status (66-75), time remaining (79-89),
temperature (93-96), cycle count (100), wattage (104), serial (108),
health (112-118), max capacity (120). -/
def parseBatteryInfo (d : Dump) : BatteryInfo :=
  let info := initInfo
  let currentCap := getInt d "CurrentCapacity"
  let maxCap := getInt d "MaxCapacity"
  let info := if maxCap > 0 then { info with percent := currentCap * 100 / maxCap } else info
  let info :=
    if getYesNo d "IsCharging" = "Yes" then
      { info with isCharging := true, status := "Charging" }
    else
      let info := { info with isCharging := false, status := "Discharging" }
      if getYes d "FullyCharged" = "Yes" then { info with status := "Charged" } else info
  let tr := getInt d "TimeRemaining"
  let info :=
    if tr < 65535 then
      { info with remaining := toString (tr / 60) ++ ":" ++ pad2 (tr % 60) ++ " remaining" }
    else
      let info := { info with remaining := "Calculating..." }
      if info.status = "Charged" then { info with remaining := "" } else info
  let temp := getInt d "Temperature"
  let info := if temp > 0 then { info with temperature := (temp : ℚ) / 100 } else info
  let info := { info with cycleCount := getInt d "CycleCount" }
  let info := { info with wattage := getInt d "Watts" }
  let info := { info with serial := getStr d "Serial" }
  let designCap := getInt d "DesignCapacity"
  let appleRawMax := getInt d "AppleRawMaxCapacity"
  let info :=
    if designCap > 0 && appleRawMax > 0 then
      { info with health := toString (divRoundEven (appleRawMax * 100) designCap) ++ "%" }
    else info
  { info with maxCapacity := maxCap }

/-- Embeds `GetBatteryInfo` (battery.go:27-127) as a function of the outcome of the
`ioreg` invocation (battery.go:38-44): a spawn/IO failure returns the
zero-initialised `info` together with the error; a successful read parses
the dump and returns no error. -/
def GetBatteryInfo (run : Except String Dump) : BatteryInfo × Option String :=
  match run with
  | .error e => (initInfo, some e)
  | .ok d => (parseBatteryInfo d, none)

/-!
The refresh scheduler.  The repository ships the state machine twice: the
`model.Update` of `main.go` (asynchronous fetch, results delivered as a
`batteryMsg`) and the `model.Update` of the alternate program variant
(src/unnamed/part_000, synchronous fetch inside the tick handler).  We embed
the scheduler-relevant fields of `model` (`info`, `history`, `err`); the
presentation fields (`help`, `keys`, `width`, `height`, `now`) carry no
scheduler state and are not read by the transitions we verify.
-/

/-- The scheduler-relevant fields of `model` (main.go:86-99). -/
structure Model where
  info : BatteryInfo
  history : List Nat
  err : Option String
deriving DecidableEq, Repr

/-- Embeds `initialModel` (main.go:101-112): the synchronous first acquisition
yields `b` (its error is discarded by `b, _ :=`), the history starts as the
singleton `[b.Percent]`, and `err` is the zero value `nil`. -/
def initialModel (b : BatteryInfo) : Model :=
  { info := b, history := [b.percent], err := none }

/-- The `batteryMsg` case of `model.Update` in `main.go` (lines 143-153):
on a non-nil error only `m.err` is set; on success the snapshot replaces
`m.info`, `m.err` is cleared, the new percent is appended to `m.history`,
and if the length then exceeds 60 the oldest entry is dropped
(`m.history = m.history[1:]`). -/
def updateBatteryMsg (m : Model) (info : BatteryInfo) (err : Option String) : Model :=
  match err with
  | some e => { m with err := some e }
  | none =>
      let h := m.history ++ [info.percent]
      { info := info
        err := none
        history := if h.length > 60 then h.drop 1 else h }

/-- The `tickMsg` case of `model.Update` in the alternate variant
(src/unnamed/part_000, lines 140-151): the result `(b, err)` of `GetBatteryInfo`
is assigned to `m.info` and `m.err` unconditionally, and `b.Percent` is
appended to the history (with the same 60-entry eviction) even when `err`
is non-nil. -/
def updateTickVariant (m : Model) (info : BatteryInfo) (err : Option String) : Model :=
  let h := m.history ++ [info.percent]
  { info := info
    err := err
    history := if h.length > 60 then h.drop 1 else h }

/-- A run of successful acquisition cycles through the handler of `main.go`:
each cycle delivers a snapshot with the given percent and a nil error. -/
def runCycles (m : Model) (ps : List Nat) : Model :=
  ps.foldl (fun m p => updateBatteryMsg m { initInfo with percent := p } none) m

/-!  Projection lemmas: each derived field of the parsed snapshot as a
closed-form function of the extracted raw values. -/

theorem parseBatteryInfo_percent (d : Dump) :
    (parseBatteryInfo d).percent =
      if getInt d "MaxCapacity" > 0 then getInt d "CurrentCapacity" * 100 / getInt d "MaxCapacity"
      else 0 := by
  simp only [parseBatteryInfo, initInfo, apply_ite BatteryInfo.percent, ite_self]

theorem parseBatteryInfo_status (d : Dump) :
    (parseBatteryInfo d).status =
      if getYesNo d "IsCharging" = "Yes" then "Charging"
      else if getYes d "FullyCharged" = "Yes" then "Charged"
      else "Discharging" := by
  simp only [parseBatteryInfo, initInfo, apply_ite BatteryInfo.status, ite_self]

theorem parseBatteryInfo_remaining (d : Dump) :
    (parseBatteryInfo d).remaining =
      if getInt d "TimeRemaining" < 65535 then
        toString (getInt d "TimeRemaining" / 60) ++ ":" ++ pad2 (getInt d "TimeRemaining" % 60) ++ " remaining"
      else if getYesNo d "IsCharging" ≠ "Yes" ∧ getYes d "FullyCharged" = "Yes" then ""
      else "Calculating..." := by
  simp only [parseBatteryInfo, initInfo, apply_ite BatteryInfo.remaining,
    apply_ite BatteryInfo.status, ite_self]
  by_cases hC : getYesNo d "IsCharging" = "Yes" <;>
  by_cases hF : getYes d "FullyCharged" = "Yes" <;>
  by_cases hT : getInt d "TimeRemaining" < 65535 <;>
  simp [hC, hF, hT]

theorem parseBatteryInfo_temperature (d : Dump) :
    (parseBatteryInfo d).temperature =
      if getInt d "Temperature" > 0 then ((getInt d "Temperature" : ℚ)) / 100 else 0 := by
  simp only [parseBatteryInfo, initInfo, apply_ite BatteryInfo.temperature, ite_self]

theorem parseBatteryInfo_health (d : Dump) :
    (parseBatteryInfo d).health =
      if getInt d "DesignCapacity" > 0 && getInt d "AppleRawMaxCapacity" > 0 then
        toString (divRoundEven (getInt d "AppleRawMaxCapacity" * 100) (getInt d "DesignCapacity")) ++ "%"
      else "" := by
  simp only [parseBatteryInfo, initInfo, apply_ite BatteryInfo.health, ite_self]

/-- A key that occurs in no record of the dump extracts as `0`:
`FindStringSubmatch` finds nothing and `getInt` returns its fallback. -/
theorem getInt_eq_zero_of_absent (d : Dump) (key : String)
    (h : ∀ kv ∈ d, kv.1 ≠ key) : getInt d key = 0 := by
  unfold getInt
  have hfind : d.find? (fun e => e.1 = key && (match e.2 with | .num _ => true | _ => false)) = none := by
    rw [List.find?_eq_none]
    intro kv hkv
    simp [h kv hkv]
  rw [hfind]

/-- C1: for every dump whose parsed MaxCapacity is positive, the snapshot
percent is CurrentCapacity * 100 / MaxCapacity with integer floor division;
when MaxCapacity is 0 (in particular when absent, since an absent key
extracts as 0) the percent stays 0. -/
theorem percent_floor_division (d : Dump) :
    (getInt d "MaxCapacity" > 0 →
      (parseBatteryInfo d).percent = getInt d "CurrentCapacity" * 100 / getInt d "MaxCapacity") ∧
    (getInt d "MaxCapacity" = 0 → (parseBatteryInfo d).percent = 0) := by
  constructor
  · intro h
    rw [parseBatteryInfo_percent, if_pos h]
  · intro h
    rw [parseBatteryInfo_percent, h]
    simp

/-- Witness for C1 at the example in the spec: current=15, max=97 gives percent
15 (= 1500 / 97 rounded down). -/
theorem percent_floor_division_witness :
    getInt [("CurrentCapacity", FieldVal.num 15), ("MaxCapacity", FieldVal.num 97)] "MaxCapacity" > 0 ∧
    (parseBatteryInfo [("CurrentCapacity", FieldVal.num 15), ("MaxCapacity", FieldVal.num 97)]).percent = 15 :=
  ⟨by decide,
   ((percent_floor_division [("CurrentCapacity", FieldVal.num 15), ("MaxCapacity", FieldVal.num 97)]).1
      (by decide)).trans (by decide)⟩

/-- C3: TimeRemaining 125 formats as "2:05 remaining" (hours = minutes div
60, remainder zero-padded to two digits); the sentinel 65535 yields
"Calculating..." unless the derived status is Charged, where it yields the
empty string. -/
theorem remaining_label_cases (d : Dump) :
    (getInt d "TimeRemaining" = 125 → (parseBatteryInfo d).remaining = "2:05 remaining") ∧
    (getInt d "TimeRemaining" = 65535 → (parseBatteryInfo d).status ≠ "Charged" →
      (parseBatteryInfo d).remaining = "Calculating...") ∧
    (getInt d "TimeRemaining" = 65535 → (parseBatteryInfo d).status = "Charged" →
      (parseBatteryInfo d).remaining = "") := by
  refine ⟨fun h => ?_, fun h hs => ?_, fun h hs => ?_⟩
  · rw [parseBatteryInfo_remaining, h, if_pos (by decide)]
    decide
  · rw [parseBatteryInfo_status] at hs
    rw [parseBatteryInfo_remaining, h, if_neg (by decide)]
    by_cases hC : getYesNo d "IsCharging" = "Yes" <;>
      by_cases hF : getYes d "FullyCharged" = "Yes" <;>
      simp [hC, hF] at hs ⊢
  · rw [parseBatteryInfo_status] at hs
    rw [parseBatteryInfo_remaining, h, if_neg (by decide)]
    by_cases hC : getYesNo d "IsCharging" = "Yes" <;>
      by_cases hF : getYes d "FullyCharged" = "Yes" <;>
      simp [hC, hF] at hs ⊢

/-- Witness for C3: a discharging dump with TimeRemaining 125 gets
"2:05 remaining", and a fully-charged dump at the sentinel gets "". -/
theorem remaining_label_cases_witness :
    getInt [("TimeRemaining", FieldVal.num 125)] "TimeRemaining" = 125 ∧
    (parseBatteryInfo [("TimeRemaining", FieldVal.num 125)]).remaining = "2:05 remaining" ∧
    (parseBatteryInfo [("TimeRemaining", FieldVal.num 65535), ("FullyCharged", FieldVal.flag true)]).remaining = "" :=
  ⟨by decide,
   (remaining_label_cases [("TimeRemaining", FieldVal.num 125)]).1 (by decide),
   (remaining_label_cases [("TimeRemaining", FieldVal.num 65535), ("FullyCharged", FieldVal.flag true)]).2.2
     (by decide) (by decide)⟩

/-- C4: an IsCharging flag extracting as "Yes" forces status Charging no
matter what the FullyCharged flag says; otherwise the status is Discharging,
upgraded to Charged exactly when the FullyCharged flag extracts as "Yes". -/
theorem status_from_flags (d : Dump) :
    (getYesNo d "IsCharging" = "Yes" → (parseBatteryInfo d).status = "Charging") ∧
    (getYesNo d "IsCharging" ≠ "Yes" →
      (parseBatteryInfo d).status =
        if getYes d "FullyCharged" = "Yes" then "Charged" else "Discharging") := by
  constructor <;> intro h <;> simp [parseBatteryInfo_status, h]

/-- Witness for C4: a dump that is both charging and fully charged reads as
Charging, and one that is only fully charged reads as Charged. -/
theorem status_from_flags_witness :
    getYesNo [("IsCharging", FieldVal.flag true), ("FullyCharged", FieldVal.flag true)] "IsCharging" = "Yes" ∧
    (parseBatteryInfo [("IsCharging", FieldVal.flag true), ("FullyCharged", FieldVal.flag true)]).status = "Charging" ∧
    (parseBatteryInfo [("IsCharging", FieldVal.flag false), ("FullyCharged", FieldVal.flag true)]).status = "Charged" :=
  ⟨by decide,
   (status_from_flags [("IsCharging", FieldVal.flag true), ("FullyCharged", FieldVal.flag true)]).1 (by decide),
   ((status_from_flags [("IsCharging", FieldVal.flag false), ("FullyCharged", FieldVal.flag true)]).2
      (by decide)).trans (by decide)⟩


/-- C5 counterexample: a dump in which both DesignCapacity and
AppleRawMaxCapacity appear and DesignCapacity is nonzero, yet the health
field is omitted, because AppleRawMaxCapacity parses to 0 and the code also
requires it to be positive (battery.go:115).  The claim would demand the
present value "0%" here. -/
theorem health_presence_counterexample :
    ("AppleRawMaxCapacity", FieldVal.num 0) ∈
      ([("DesignCapacity", FieldVal.num 8579), ("AppleRawMaxCapacity", FieldVal.num 0)] : Dump) ∧
    getInt [("DesignCapacity", FieldVal.num 8579), ("AppleRawMaxCapacity", FieldVal.num 0)] "DesignCapacity" = 8579 ∧
    (parseBatteryInfo [("DesignCapacity", FieldVal.num 8579), ("AppleRawMaxCapacity", FieldVal.num 0)]).health = "" := by
  decide

/-- C5 amended: the health field is present (nonempty) iff both the parsed
DesignCapacity and the parsed AppleRawMaxCapacity are positive (an absent
key parses to 0); when present it is the rounded percentage
AppleRawMaxCapacity * 100 / DesignCapacity followed by "%". -/
theorem health_presence_amended (d : Dump) :
    ((parseBatteryInfo d).health ≠ "" ↔
      getInt d "DesignCapacity" > 0 ∧ getInt d "AppleRawMaxCapacity" > 0) ∧
    (getInt d "DesignCapacity" > 0 → getInt d "AppleRawMaxCapacity" > 0 →
      (parseBatteryInfo d).health =
        toString (divRoundEven (getInt d "AppleRawMaxCapacity" * 100) (getInt d "DesignCapacity")) ++ "%") := by
  have hne : ∀ s : String, s ++ "%" ≠ "" := by
    intro s hcontra
    have h1 := congrArg String.length hcontra
    rw [String.length_append] at h1
    have h2 : ("%" : String).length = 1 := rfl
    have h3 : ("" : String).length = 0 := rfl
    omega
  constructor
  · rw [parseBatteryInfo_health]
    by_cases hD : getInt d "DesignCapacity" > 0 <;>
      by_cases hR : getInt d "AppleRawMaxCapacity" > 0 <;>
      simp [hD, hR, hne]
  · intro hD hR
    rw [parseBatteryInfo_health, if_pos (by simp [hD, hR])]

/-- Witness for amended C5 at the example in the spec: design=8579, rawMax=7800
rounds 90.919... to "91%". -/
theorem health_presence_amended_witness :
    getInt [("DesignCapacity", FieldVal.num 8579), ("AppleRawMaxCapacity", FieldVal.num 7800)] "DesignCapacity" > 0 ∧
    (parseBatteryInfo [("DesignCapacity", FieldVal.num 8579), ("AppleRawMaxCapacity", FieldVal.num 7800)]).health = "91%" :=
  ⟨by decide,
   ((health_presence_amended
       [("DesignCapacity", FieldVal.num 8579), ("AppleRawMaxCapacity", FieldVal.num 7800)]).2
     (by decide) (by decide)).trans (by decide)⟩

/-- C7: the only error is an ioreg invocation/read failure, and then the
snapshot is the zero-initialised one; a successfully read dump never yields
an error, and any absent field falls back to its default — in particular a
dump with no Temperature record yields temperature 0. -/
theorem acquire_error_policy (e : String) (d : Dump)
    (h : ∀ kv ∈ d, kv.1 ≠ "Temperature") :
    GetBatteryInfo (Except.error e) = (initInfo, some e) ∧
    (GetBatteryInfo (Except.ok d)).2 = none ∧
    (parseBatteryInfo d).temperature = 0 := by
  refine ⟨rfl, rfl, ?_⟩
  rw [parseBatteryInfo_temperature, getInt_eq_zero_of_absent d _ h]
  simp

/-- Witness for C7: a spawn failure returns the defaults plus the error, and
a dump without a Temperature record parses with temperature 0. -/
theorem acquire_error_policy_witness :
    (∀ kv ∈ ([("CycleCount", FieldVal.num 193)] : Dump), kv.1 ≠ "Temperature") ∧
    (GetBatteryInfo (Except.error "exec: ioreg not found") = (initInfo, some "exec: ioreg not found") ∧
     (GetBatteryInfo (Except.ok [("CycleCount", FieldVal.num 193)])).2 = none ∧
     (parseBatteryInfo [("CycleCount", FieldVal.num 193)]).temperature = 0) :=
  ⟨by decide,
   acquire_error_policy "exec: ioreg not found" [("CycleCount", FieldVal.num 193)] (by decide)⟩

/-- C8 counterexample: nothing clamps the quotient, so a dump whose
CurrentCapacity exceeds its MaxCapacity produces a percent above 100
(here 200 * 100 / 100 = 200). -/
theorem percent_range_counterexample :
    (parseBatteryInfo [("CurrentCapacity", FieldVal.num 200), ("MaxCapacity", FieldVal.num 100)]).percent = 200 ∧
    ¬ (parseBatteryInfo [("CurrentCapacity", FieldVal.num 200), ("MaxCapacity", FieldVal.num 100)]).percent ≤ 100 := by
  decide

/-- C8 amended: the percent is a non-negative integer, and it is at most 100
whenever the parsed CurrentCapacity does not exceed the parsed MaxCapacity
(which holds for every dump the battery controller actually emits); the
0-100 bound does not hold for every dump, as the counterexample with
CurrentCapacity 200 and MaxCapacity 100 shows. -/
theorem percent_range_amended (d : Dump)
    (h : getInt d "CurrentCapacity" ≤ getInt d "MaxCapacity") :
    (parseBatteryInfo d).percent ≤ 100 := by
  rw [parseBatteryInfo_percent]
  split
  · rename_i hm
    calc getInt d "CurrentCapacity" * 100 / getInt d "MaxCapacity"
        ≤ getInt d "MaxCapacity" * 100 / getInt d "MaxCapacity" :=
          Nat.div_le_div_right (Nat.mul_le_mul_right 100 h)
      _ = 100 := Nat.mul_div_cancel_left 100 hm
  · exact Nat.zero_le 100

/-- Witness for amended C8: current=15 ≤ max=97 gives a percent within
bounds. -/
theorem percent_range_amended_witness :
    getInt [("CurrentCapacity", FieldVal.num 15), ("MaxCapacity", FieldVal.num 97)] "CurrentCapacity" ≤
      getInt [("CurrentCapacity", FieldVal.num 15), ("MaxCapacity", FieldVal.num 97)] "MaxCapacity" ∧
    (parseBatteryInfo [("CurrentCapacity", FieldVal.num 15), ("MaxCapacity", FieldVal.num 97)]).percent ≤ 100 :=
  ⟨by decide,
   percent_range_amended [("CurrentCapacity", FieldVal.num 15), ("MaxCapacity", FieldVal.num 97)] (by decide)⟩

/-- C9 counterexample: a fully-charged dump with the concrete TimeRemaining
125 still carries the formatted label "2:05 remaining" — the empty label is
produced only on the 65535 sentinel branch (battery.go:84-88), so a Charged
status alone does not empty the label. -/
theorem charged_empty_label_counterexample :
    (parseBatteryInfo [("FullyCharged", FieldVal.flag true), ("TimeRemaining", FieldVal.num 125)]).status = "Charged" ∧
    (parseBatteryInfo [("FullyCharged", FieldVal.flag true), ("TimeRemaining", FieldVal.num 125)]).remaining = "2:05 remaining" ∧
    (parseBatteryInfo [("FullyCharged", FieldVal.flag true), ("TimeRemaining", FieldVal.num 125)]).remaining ≠ "" := by
  decide

/-- C9 amended: for every dump whose derived status is Charged and whose
TimeRemaining is at least the 65535 sentinel, the label is the empty
string; a Charged dump with a sub-sentinel TimeRemaining keeps the
formatted H:MM label. -/
theorem charged_empty_label_amended (d : Dump)
    (hs : (parseBatteryInfo d).status = "Charged")
    (ht : 65535 ≤ getInt d "TimeRemaining") :
    (parseBatteryInfo d).remaining = "" := by
  rw [parseBatteryInfo_status] at hs
  rw [parseBatteryInfo_remaining, if_neg (by omega)]
  by_cases hC : getYesNo d "IsCharging" = "Yes" <;>
    by_cases hF : getYes d "FullyCharged" = "Yes" <;>
    simp [hC, hF] at hs ⊢

/-- Witness for amended C9: fully charged at the sentinel gives the empty
label. -/
theorem charged_empty_label_amended_witness :
    (parseBatteryInfo [("FullyCharged", FieldVal.flag true), ("TimeRemaining", FieldVal.num 65535)]).status = "Charged" ∧
    65535 ≤ getInt [("FullyCharged", FieldVal.flag true), ("TimeRemaining", FieldVal.num 65535)] "TimeRemaining" ∧
    (parseBatteryInfo [("FullyCharged", FieldVal.flag true), ("TimeRemaining", FieldVal.num 65535)]).remaining = "" :=
  ⟨by decide, by decide,
   charged_empty_label_amended [("FullyCharged", FieldVal.flag true), ("TimeRemaining", FieldVal.num 65535)]
     (by decide) (by decide)⟩

/-- C10: a dump containing no TimeRemaining record extracts 0 minutes,
which is below the 65535 sentinel, so the label is the formatted
"0:00 remaining" rather than "Calculating...". -/
theorem absent_time_remaining_label (d : Dump)
    (h : ∀ kv ∈ d, kv.1 ≠ "TimeRemaining") :
    (parseBatteryInfo d).remaining = "0:00 remaining" := by
  rw [parseBatteryInfo_remaining, getInt_eq_zero_of_absent d _ h, if_pos (by decide)]
  decide

/-- Witness for C10: a dump with only a CurrentCapacity record is labelled
"0:00 remaining". -/
theorem absent_time_remaining_label_witness :
    (∀ kv ∈ ([("CurrentCapacity", FieldVal.num 15)] : Dump), kv.1 ≠ "TimeRemaining") ∧
    (parseBatteryInfo [("CurrentCapacity", FieldVal.num 15)]).remaining = "0:00 remaining" :=
  ⟨by decide,
   absent_time_remaining_label [("CurrentCapacity", FieldVal.num 15)] (by decide)⟩

/-- C2 counterexample: the tick handler of the alternate variant
(src/unnamed/part_000:140-151) assigns the delivered snapshot and appends
its percent to the history even when the acquisition error is non-nil, so a
failed cycle does not leave the last good snapshot and the history
unchanged there.  Concretely, from a state with snapshot percent 50 and
history [50], a failed cycle delivering the zero-value snapshot grows the
history to [50, 0] and overwrites the snapshot. -/
theorem failed_cycle_variant_counterexample :
    (updateTickVariant
        { info := { initInfo with percent := 50 }, history := [50], err := none }
        initInfo (some "ioreg: exec failure")).history = [50, 0] ∧
    (updateTickVariant
        { info := { initInfo with percent := 50 }, history := [50], err := none }
        initInfo (some "ioreg: exec failure")).info ≠ { initInfo with percent := 50 } ∧
    (updateTickVariant
        { info := { initInfo with percent := 50 }, history := [50], err := none }
        initInfo (some "ioreg: exec failure")).err = some "ioreg: exec failure" := by
  decide

/-- C2 amended: in the scheduler of the main program (the `batteryMsg` case of
`model.Update`, main.go:143-153) a cycle completing with a non-nil error
sets the stored error to exactly that value and leaves both the last good
snapshot and the percent history unchanged; the tick handler of the alternate
variant instead overwrites the snapshot and appends to the history even on
error. -/
theorem failed_cycle_preserves_state (m : Model) (info : BatteryInfo) (e : String) :
    (updateBatteryMsg m info (some e)).err = some e ∧
    (updateBatteryMsg m info (some e)).info = m.info ∧
    (updateBatteryMsg m info (some e)).history = m.history :=
  ⟨rfl, rfl, rfl⟩

/-- Once the history holds at most 60 readings, a run of successful cycles
keeps exactly the most recent 60 entries of the appended sequence: the
resulting history is the concatenation with the excess evicted from the
front. -/
theorem runCycles_history (ps : List Nat) (m : Model) (h : m.history.length ≤ 60) :
    (runCycles m ps).history = (m.history ++ ps).drop (m.history.length + ps.length - 60) := by
  induction ps generalizing m with
  | nil =>
      simp [runCycles, Nat.sub_eq_zero_of_le h]
  | cons p ps ih =>
      have hstep : runCycles m (p :: ps) =
          runCycles (updateBatteryMsg m { initInfo with percent := p } none) ps := rfl
      rw [hstep]
      by_cases hlen : m.history.length = 60
      · have h1 : 1 ≤ m.history.length := by omega
        have hcond : (m.history ++ [p]).length > 60 := by
          simp [List.length_append, hlen]
        have hhist : (updateBatteryMsg m { initInfo with percent := p } none).history =
            (m.history ++ [p]).drop 1 := by
          simp only [updateBatteryMsg, if_pos hcond]
        have hlen2 : ((m.history ++ [p]).drop 1).length = 60 := by
          simp [List.length_drop, List.length_append, hlen]
        rw [ih _ (by rw [hhist, hlen2]), hhist, hlen2]
        have hidx : 60 + ps.length - 60 = ps.length := by omega
        rw [hidx]
        have hd1 : (m.history ++ [p]).drop 1 ++ ps = (m.history ++ ([p] ++ ps)).drop 1 := by
          rw [List.drop_append_of_le_length h1, List.drop_append_of_le_length h1,
            List.append_assoc]
        rw [hd1, List.drop_drop, List.singleton_append]
        congr 1
        simp only [List.length_cons]
        omega
      · have hlt : m.history.length < 60 := lt_of_le_of_ne h hlen
        have hcond : ¬ (m.history ++ [p]).length > 60 := by
          simp only [List.length_append, List.length_singleton]
          omega
        have hhist : (updateBatteryMsg m { initInfo with percent := p } none).history =
            m.history ++ [p] := by
          simp only [updateBatteryMsg, if_neg hcond]
        have hlen2 : (m.history ++ [p]).length ≤ 60 := by
          simp only [List.length_append, List.length_singleton]
          omega
        rw [ih _ (by rw [hhist]; exact hlen2), hhist, List.append_assoc, List.singleton_append]
        have hL : (m.history ++ [p]).length = m.history.length + 1 := by simp
        rw [hL]
        congr 1
        simp only [List.length_cons]
        omega

/-- C6: in the scheduler of `main.go` a successful cycle appends the new percent
reading to the history; when the history already holds 60 readings the
single oldest entry is evicted from the front and the order of the rest is
preserved, so the history never exceeds 60 entries; and after 61 successful
cycles from the initial state the initial reading (and the reading of the first
cycle) have been evicted, leaving exactly the 60 most recent readings. -/
theorem history_bounded_fifo (m : Model) (info : BatteryInfo) (b : BatteryInfo) (ps : List Nat)
    (h1 : m.history.length ≤ 60) (h2 : ps.length = 61) :
    (updateBatteryMsg m info none).history.length ≤ 60 ∧
    (updateBatteryMsg m info none).history =
      (if 60 ≤ m.history.length then m.history.drop 1 else m.history) ++ [info.percent] ∧
    (runCycles (initialModel b) ps).history = ps.drop 1 := by
  refine ⟨?_, ?_, ?_⟩
  · simp only [updateBatteryMsg]
    by_cases hc : (m.history ++ [info.percent]).length > 60
    · rw [if_pos hc]
      simp only [List.length_drop, List.length_append, List.length_singleton]
      omega
    · rw [if_neg hc]
      simp only [List.length_append, List.length_singleton] at hc ⊢
      omega
  · simp only [updateBatteryMsg]
    by_cases hc : (m.history ++ [info.percent]).length > 60
    · have hge : 60 ≤ m.history.length := by
        simp only [List.length_append, List.length_singleton] at hc
        omega
      rw [if_pos hc, if_pos hge]
      exact List.drop_append_of_le_length (by omega)
    · have hlt : ¬ 60 ≤ m.history.length := by
        simp only [List.length_append, List.length_singleton] at hc
        omega
      rw [if_neg hc, if_neg hlt]
  · have h3 : (initialModel b).history.length ≤ 60 := by simp [initialModel]
    have h4 := runCycles_history ps (initialModel b) h3
    rw [h4]
    simp [initialModel, h2]

/-- Witness for C6 on a concrete run: one successful update from the
initial model, and a full run of 61 successful cycles with readings
0,…,60. -/
theorem history_bounded_fifo_witness :
    (initialModel initInfo).history.length ≤ 60 ∧ (List.range 61).length = 61 ∧
    ((updateBatteryMsg (initialModel initInfo) initInfo none).history.length ≤ 60 ∧
     (updateBatteryMsg (initialModel initInfo) initInfo none).history =
       (if 60 ≤ (initialModel initInfo).history.length then (initialModel initInfo).history.drop 1
        else (initialModel initInfo).history) ++ [initInfo.percent] ∧
     (runCycles (initialModel initInfo) (List.range 61)).history = (List.range 61).drop 1) :=
  ⟨by decide, by simp,
   history_bounded_fifo (initialModel initInfo) initInfo initInfo (List.range 61)
     (by decide) (by simp)⟩
